import Mathlib

/-!
Shallow embedding of the salon-bot conversation state machine
(`bot/handlers/conversation_handler.py`, `bot/handlers/conversation_states.py`,
`bot/handlers/whatsapp_conversation_handler.py`, `bot/handlers/message_handler.py`,
`bot/services/mpesa_service.py`).

Modelling conventions:
* Python strings are Lean `String`s; `str.lower`/`str.strip` are modelled over
  ASCII via `Char.toLower` / `String.trim`.
* Python dicts (the appointment draft) are association lists with Python's
  update semantics: assignment to an existing key rewrites it in place,
  assignment to a fresh key appends.  Real Python dicts never hold a key
  twice; `wfDict` states that invariant where a lemma needs it.
* Python `None` is `PVal.pyNone`; draft values are `PVal`.
* `datetime.now()` is an abstract clock: a minute ordinal `nowMin` plus the two
  opaque strftime outputs `todayIso` / `tomorrowIso` that `parse_date` can emit.
* The per-chat slice of the module-level stores (`user_states`,
  `appointment_data`, `conversation_context`, `conversation_history`) is the
  `Session` structure; key absent in the Python dict = `none` field.
* Bot collaborator calls (`self.bot.send_*` / `ask_*`) are abstract response
  tokens (`Resp`), as the spec treats the platform adapter as external.
* A Python exception escaping a handler is `Except.error` with the error kind.
-/

/-- Python `None` vs. string values stored in the appointment draft dict. -/
inductive PVal where
  | str (v : String)
  | pyNone
  deriving DecidableEq, Repr

/-- A Python dict with string keys (insertion-ordered association list). -/
abbrev Dict := List (String × PVal)

/-- Lookup: `d.get(k)` / `d[k]` on a Python dict (first occurrence; keys are
unique in any dict the program builds, so first = only). -/
def dget : Dict → String → Option PVal
  | [], _ => none
  | (k', v) :: rest, k => if k = k' then some v else dget rest k

/-- `k in d` for a Python dict. -/
def containsKey : Dict → String → Bool
  | [], _ => false
  | (k', _) :: rest, k => k = k' || containsKey rest k

/-- `d[k] = v` on a Python dict: overwrite the key in place if present,
append otherwise. -/
def dset : Dict → String → PVal → Dict
  | [], k, v => [(k, v)]
  | (k', v') :: rest, k, v =>
      if k' = k then (k, v) :: rest else (k', v') :: dset rest k v

/-- `d.update(new)` on a Python dict: set every key of `new` in order. -/
def dupdate (d new : Dict) : Dict :=
  new.foldl (fun acc p => dset acc p.1 p.2) d

/-- `d.get(k, default)` on a Python dict. -/
def pyGet (d : Dict) (k : String) (default : PVal) : PVal :=
  (dget d k).getD default

/-- Left-biased choice on options (used to state dict-update lemmas). -/
def oE {α : Type} : Option α → Option α → Option α
  | some v, _ => some v
  | none, b => b

/-- The value `dict.update` leaves behind for a key: last occurrence wins. -/
def dgetLast : Dict → String → Option PVal
  | [], _ => none
  | (k', v) :: rest, k => oE (dgetLast rest k) (if k = k' then some v else none)

/-- Well-formedness of a dict: no key occurs twice (true of every real Python
dict; the Lean state space of association lists is larger). -/
def wfDict (d : Dict) : Prop := (d.map Prod.fst).Nodup

instance (d : Dict) : Decidable (wfDict d) := by unfold wfDict; infer_instance

-- ### String helpers (Python primitives, ASCII model)

/-- Does `hay` start with `needle`? (building block for Python `in`). -/
def startsWithL : List Char → List Char → Bool
  | _, [] => true
  | [], _ :: _ => false
  | a :: as, b :: bs => a = b && startsWithL as bs

/-- Substring containment on char lists. -/
def hasSub : List Char → List Char → Bool
  | [], needle => needle.isEmpty
  | c :: t, needle => startsWithL (c :: t) needle || hasSub t needle

/-- Python `needle in hay` on strings. -/
def pyIn (needle hay : String) : Bool := hasSub hay.data needle.data

/-- Python `any(word in text for word in words)`. -/
def anyIn (words : List String) (text : String) : Bool :=
  words.any (fun w => pyIn w text)

/-- ASCII lower-casing of one character. -/
def lowerChar (c : Char) : Char :=
  if 65 ≤ c.toNat && c.toNat ≤ 90 then Char.ofNat (c.toNat + 32) else c

/-- Python `text.lower()` (ASCII model). -/
def lowerStr (s : String) : String := String.mk (s.data.map lowerChar)

/-- ASCII whitespace (the characters Python `str.strip()` removes). -/
def isSpaceChar (c : Char) : Bool :=
  c = ' ' || c = '\t' || c = '\n' || c = '\r'

/-- Python `text.strip()`: drop whitespace from both ends. -/
def pyStrip (s : String) : String :=
  String.mk (((s.data.dropWhile isSpaceChar).reverse.dropWhile isSpaceChar).reverse)

/-- Python `re.sub(r'\D', '', text)` / `filter(str.isdigit, ...)`:
keep the digits (ASCII model). -/
def digitsOf (s : String) : List Char := s.data.filter Char.isDigit

-- ### Abstract clock (datetime.now and its two strftime renderings)

/-- `datetime.now()` as seen by the embedded code: a minute ordinal for
timestamp arithmetic plus the opaque `%Y-%m-%d` renderings of today and of
today + 1 day, which are the only dates `parse_date` can produce. -/
structure Clock where
  nowMin : Nat
  todayIso : String
  tomorrowIso : String
  deriving DecidableEq, Repr

-- ### conversation_states.py

/-- `ConversationState` enum (conversation_states.py lines 8-21). -/
inductive ConversationState where
  | idle
  | appointmentInProgress
  | awaitingServiceSelection
  | awaitingDate
  | awaitingTime
  | awaitingService
  | awaitingName
  | awaitingPhone
  | awaitingConfirmation
  | awaitingPayment
  | paymentCompleted
  | choosingLanguage
  | viewingServices
  deriving DecidableEq, Repr

/-- `.value` of the `ConversationState` enum members. -/
def stateValue : ConversationState → String
  | .idle => "idle"
  | .appointmentInProgress => "appointment_in_progress"
  | .awaitingServiceSelection => "awaiting_service_selection"
  | .awaitingDate => "awaiting_date"
  | .awaitingTime => "awaiting_time"
  | .awaitingService => "awaiting_service"
  | .awaitingName => "awaiting_name"
  | .awaitingPhone => "awaiting_phone"
  | .awaitingConfirmation => "awaiting_confirmation"
  | .awaitingPayment => "awaiting_payment"
  | .paymentCompleted => "payment_completed"
  | .choosingLanguage => "choosing_language"
  | .viewingServices => "viewing_services"

/-- The per-chat slice of `conversation_context[chat_id]` (a Python dict with
fixed keys; `none` = key absent). Timestamps are `Clock.nowMin` ordinals. -/
structure Ctx where
  lastStateChange : Option Nat := none
  currentState : Option String := none
  lastActivity : Option Nat := none
  lastAppointmentUpdate : Option Nat := none
  lastTopic : Option String := none
  selectedService : Option PVal := none
  lastServiceSelection : Option Nat := none
  deriving DecidableEq, Repr

/-- Empty context dict. -/
def emptyCtx : Ctx := {}

/-- `stored.update(new)` on a context dict: keys present in `new` overwrite,
keys absent from `new` keep their stored values. -/
def mergeCtx (o n : Ctx) : Ctx where
  lastStateChange := oE n.lastStateChange o.lastStateChange
  currentState := oE n.currentState o.currentState
  lastActivity := oE n.lastActivity o.lastActivity
  lastAppointmentUpdate := oE n.lastAppointmentUpdate o.lastAppointmentUpdate
  lastTopic := oE n.lastTopic o.lastTopic
  selectedService := oE n.selectedService o.selectedService
  lastServiceSelection := oE n.lastServiceSelection o.lastServiceSelection

/-- The per-chat slice of the module-level stores of conversation_states.py:
`user_states`, `appointment_data`, `conversation_context`,
`conversation_history` (role, message pairs). `none` = chat id absent. -/
structure Session where
  userState : Option ConversationState := none
  appointment : Option Dict := none
  ctx : Option Ctx := none
  history : List (String × String) := []
  deriving DecidableEq, Repr

/-- A chat id with no entry in any store. -/
def emptySession : Session := {}

/-- `get_user_state` (conversation_states.py lines 30-34). -/
def get_user_state (s : Session) : ConversationState :=
  s.userState.getD .idle

/-- `get_conversation_context` (lines 74-78); `.copy()` is the identity in a
pure model. -/
def get_conversation_context (s : Session) : Ctx :=
  s.ctx.getD emptyCtx

/-- `set_conversation_context` (lines 80-85): create-if-absent, then
`.update(context)`. -/
def set_conversation_context (s : Session) (c : Ctx) : Session :=
  { s with ctx := some (mergeCtx (s.ctx.getD emptyCtx) c) }

/-- `set_user_state` (lines 36-45): store the state, then record
`last_state_change` and `current_state` in the context. -/
def set_user_state (clk : Clock) (s : Session) (st : ConversationState) :
    Session :=
  let s' : Session := { s with userState := some st }
  let ctx := get_conversation_context s'
  set_conversation_context s'
    { ctx with lastStateChange := some clk.nowMin,
               currentState := some (stateValue st) }

/-- `clear_user_state` (lines 47-54): pop the chat id from every store. -/
def clear_user_state (_s : Session) : Session := emptySession

/-- `get_appointment_data` (lines 56-60); returns a copy, which a pure value
already is. -/
def get_appointment_data (s : Session) : Dict :=
  s.appointment.getD []

/-- `set_appointment_data` (lines 62-72): create-if-absent, in-place
`.update(data)`, then record `last_appointment_update` in the context. -/
def set_appointment_data (clk : Clock) (s : Session) (d : Dict) : Session :=
  let stored := s.appointment.getD []
  let s' : Session := { s with appointment := some (dupdate stored d) }
  let ctx := get_conversation_context s'
  set_conversation_context s' { ctx with lastAppointmentUpdate := some clk.nowMin }

/-- `add_to_conversation_history` (lines 107-121): append, keep last 10
(entry timestamps are irrelevant to every claim and elided). -/
def add_to_conversation_history (s : Session) (role msg : String) : Session :=
  let h := s.history ++ [(role, msg)]
  { s with history := if h.length > 10 then h.drop (h.length - 10) else h }

/-- `update_last_activity` (lines 165-169). -/
def update_last_activity (clk : Clock) (s : Session) : Session :=
  let ctx := get_conversation_context s
  set_conversation_context s { ctx with lastActivity := some clk.nowMin }

/-- `reset_to_idle_after_timeout` (lines 149-163): clears the whole session
when more than `timeoutMinutes` have elapsed since `last_activity`.
`(now - last).total_seconds() / 60` is the minute difference. -/
def reset_to_idle_after_timeout (clk : Clock) (s : Session)
    (timeoutMinutes : Nat := 30) : Bool × Session :=
  let ctx := get_conversation_context s
  match ctx.lastActivity with
  | some last =>
      if clk.nowMin - last > timeoutMinutes then (true, clear_user_state s)
      else (false, s)
  | none => (false, s)

/-- `track_service_selection` (lines 267-272). -/
def track_service_selection (clk : Clock) (s : Session) (service : PVal) :
    Session :=
  let ctx := get_conversation_context s
  set_conversation_context s
    { ctx with selectedService := some service,
               lastServiceSelection := some clk.nowMin }

/-- `set_user_viewing_services` (lines 261-265). -/
def set_user_viewing_services (clk : Clock) (s : Session) (viewing : Bool) :
    Session :=
  let s' := if viewing then set_user_state clk s .viewingServices else s
  set_conversation_context s' { emptyCtx with lastTopic := some "services" }

/-- `is_user_viewing_services` (lines 256-259). -/
def is_user_viewing_services (s : Session) : Bool :=
  (get_conversation_context s).lastTopic = some "services"
    || get_user_state s = .viewingServices

-- ### conversation_handler.py (ConversationHandler, Telegram variant)

/-- Abstract bot-collaborator responses: one token per `self.bot.*` /
`self.*` response method reached by a handler (platform adapter is external
per spec section 6). -/
inductive Resp where
  | greeting
  | servicesList
  | mainMenu
  | locationInfo
  | askForService
  | askForServiceAgain
  | askForServiceWithTime (timeInfo : String)
  | askForDate (service : PVal)
  | askForDateAgain (service : PVal)
  | askForTime
  | askForTimeAgain
  | askForName (service : PVal)
  | askForNameAgain
  | askForNameWithTime (service : String) (timeInfo : String)
  | askForPhone
  | askForPhoneAgain
  | askForConfirmation (appointment : Dict)
  | askForConfirmationAgain (appointment : Dict)
  | paymentOptions (appointment : Dict)
  | appointmentError
  | appointmentCancelled
  deriving DecidableEq, Repr

/-- A Python exception escaping a handler. -/
inductive PyError where
  | unboundLocal (name : String)
  deriving DecidableEq, Repr

/-- Result of one handler invocation: the updated session and the response
emitted, or an uncaught exception. -/
abbrev HRes := Except PyError (Session × Resp)

/-- `ConversationHandler.is_appointment_with_time` (lines 235-243). -/
def is_appointment_with_time (text : String) : Bool :=
  let textLower := lowerStr text
  let timeWords := ["tomorrow", "today", "morning", "afternoon", "evening", "am", "pm"]
  let appointmentWords := ["book", "appointment", "schedule"]
  anyIn timeWords textLower && anyIn appointmentWords textLower

/-- `ConversationHandler.is_service_selection` (lines 245-248). -/
def is_service_selection (text : String) : Bool :=
  anyIn ["hair", "haircut", "styling", "manicure", "pedicure",
         "facial", "makeup", "coloring", "nails"] text

/-- `ConversationHandler.extract_service` (lines 250-263); `none` = Python
`None`. -/
def extract_service (text : String) : Option String :=
  let textLower := lowerStr text
  if pyIn "hair" textLower || pyIn "haircut" textLower then
    some "Haircut & Styling"
  else if pyIn "manicure" textLower || pyIn "pedicure" textLower
      || pyIn "nails" textLower then
    some "Manicure/Pedicure"
  else if pyIn "facial" textLower then some "Facial Treatment"
  else if pyIn "makeup" textLower then some "Makeup Services"
  else if pyIn "coloring" textLower then some "Hair Coloring"
  else none

/-- `ConversationHandler.extract_time_info` (lines 265-276). -/
def extract_time_info (text : String) : String :=
  let textLower := lowerStr text
  if pyIn "tomorrow" textLower && pyIn "2 pm" textLower then
    "tomorrow at 2:00 PM"
  else if pyIn "tomorrow" textLower then "tomorrow"
  else if pyIn "today" textLower then "today"
  else if pyIn "2 pm" textLower then "2:00 PM"
  else "soon"

/-- `ConversationHandler.parse_date` (lines 278-286): fixed relative-day
vocabulary; `strftime('%Y-%m-%d')` outputs come from the abstract clock. -/
def parse_date (clk : Clock) (text : String) : Option String :=
  let textLower := lowerStr text
  if pyIn "tomorrow" textLower then some clk.tomorrowIso
  else if pyIn "today" textLower then some clk.todayIso
  else none

/-- `ConversationHandler.parse_time` (lines 288-301). -/
def parse_time (text : String) : Option String :=
  let textLower := lowerStr text
  if pyIn "2 pm" textLower || pyIn "2pm" textLower then some "14:00"
  else if pyIn "10 am" textLower then some "10:00"
  else if pyIn "morning" textLower then some "09:00"
  else if pyIn "afternoon" textLower then some "14:00"
  else if pyIn "evening" textLower then some "17:00"
  else none

/-- Denotation of the regex `^(\+?254|0)[17]\d{8}$` from
`ConversationHandler.is_valid_phone` (line 306), restricted to its
deterministic alternation structure. -/
def matchBody (l : List Char) : Bool :=
  match l with
  | c :: rest => (c = '7' || c = '1') && rest.length = 8 && rest.all Char.isDigit
  | [] => false

/-- Full match of `^(\+?254|0)[17]\d{8}$`: the anchored alternation
`(\+?254|0)` is the three literal prefixes `+254`, `254`, `0`, each followed
by the body `[17]\d{8}`. -/
def kenyanRegex (l : List Char) : Bool :=
  (startsWithL l ['+', '2', '5', '4'] && matchBody (l.drop 4))
    || (startsWithL l ['2', '5', '4'] && matchBody (l.drop 3))
    || (startsWithL l ['0'] && matchBody (l.drop 1))

/-- `ConversationHandler.is_valid_phone` (lines 303-308): strip non-digits,
then match the Kenyan pattern. -/
def is_valid_phone (text : String) : Bool :=
  kenyanRegex (digitsOf text)

/-- `ConversationHandler.start_appointment_flow` (lines 106-109). -/
def start_appointment_flow (clk : Clock) (s : Session) : HRes :=
  .ok (set_user_state clk s .awaitingService, .askForService)

/-- `ConversationHandler.start_appointment_for_service` (lines 111-120);
the `service` argument may be Python `None` at some call sites. -/
def start_appointment_for_service (clk : Clock) (s : Session)
    (service : PVal) : HRes :=
  let appointment := dset (get_appointment_data s) "service" service
  let s := set_appointment_data clk s appointment
  let s := set_user_state clk s .awaitingDate
  .ok (s, .askForDate service)

/-- Lift `Option String` (Python `str | None`) into a stored dict value. -/
def pvalOfOpt : Option String → PVal
  | some v => .str v
  | none => .pyNone

/-- `ConversationHandler.start_appointment_with_time` (lines 122-145). -/
def start_appointment_with_time (clk : Clock) (s : Session)
    (text : String) : HRes :=
  let textLower := lowerStr text
  let service := extract_service textLower
  let timeInfo := extract_time_info textLower
  let appointment := get_appointment_data s
  match service with
  | some svc =>
      let appointment := dset appointment "service" (.str svc)
      let appointment := dset appointment "time_info" (.str timeInfo)
      let appointment := dset appointment "time" (pvalOfOpt (parse_time textLower))
      let appointment := dset appointment "date" (pvalOfOpt (parse_date clk textLower))
      let s := set_appointment_data clk s appointment
      let s := set_user_state clk s .awaitingName
      .ok (s, .askForNameWithTime svc timeInfo)
  | none =>
      let appointment := dset appointment "time_info" (.str timeInfo)
      let s := set_appointment_data clk s appointment
      let s := set_user_state clk s .awaitingService
      .ok (s, .askForServiceWithTime timeInfo)

/-- `ConversationHandler.handle_idle_state` (lines 53-85). -/
def handle_idle_state (clk : Clock) (s : Session) (text : String) : HRes :=
  let textLower := lowerStr text
  if anyIn ["hi", "hello", "hey", "niaje", "habari", "start"] textLower then
    .ok (s, .greeting)
  else if anyIn ["service", "services", "offer", "price", "bei"] textLower then
    .ok (set_user_viewing_services clk s true, .servicesList)
  else if is_appointment_with_time textLower then
    start_appointment_with_time clk s text
  else if anyIn ["book", "appointment", "schedule"] textLower then
    start_appointment_flow clk s
  else if anyIn ["where", "location", "address"] textLower then
    .ok (s, .locationInfo)
  else if is_service_selection textLower then
    start_appointment_for_service clk s (pvalOfOpt (extract_service textLower))
  else
    .ok (s, .mainMenu)

/-- `ConversationHandler.handle_viewing_services` (lines 87-104). -/
def handle_viewing_services (clk : Clock) (s : Session) (text : String) : HRes :=
  let textLower := lowerStr text
  if is_service_selection textLower then
    let service := pvalOfOpt (extract_service textLower)
    let s := track_service_selection clk s service
    start_appointment_for_service clk s service
  else if anyIn ["book", "appointment"] textLower then
    start_appointment_flow clk s
  else
    handle_idle_state clk (set_user_state clk s .idle) text

/-- `ConversationHandler.handle_awaiting_service` (lines 147-157). -/
def handle_awaiting_service (clk : Clock) (s : Session) (text : String) : HRes :=
  let textLower := lowerStr text
  if is_service_selection textLower then
    let service := pvalOfOpt (extract_service textLower)
    let s := track_service_selection clk s service
    start_appointment_for_service clk s service
  else
    .ok (s, .askForServiceAgain)

/-- `ConversationHandler.handle_awaiting_date` (lines 159-170).  In the
unparseable branch the source reads `appointment.get('service', '')`, but the
local `appointment` is only assigned in the parseable branch, so Python
raises `UnboundLocalError` while evaluating the argument of
`ask_for_date_again`. -/
def handle_awaiting_date (clk : Clock) (s : Session) (text : String) : HRes :=
  match parse_date clk (lowerStr text) with
  | some date =>
      let appointment := dset (get_appointment_data s) "date" (.str date)
      let s := set_appointment_data clk s appointment
      let s := set_user_state clk s .awaitingTime
      .ok (s, .askForTime)
  | none => .error (.unboundLocal "appointment")

/-- `ConversationHandler.handle_awaiting_time` (lines 172-183). -/
def handle_awaiting_time (clk : Clock) (s : Session) (text : String) : HRes :=
  match parse_time (lowerStr text) with
  | some time =>
      let appointment := dset (get_appointment_data s) "time" (.str time)
      let s' := set_appointment_data clk s appointment
      let s' := set_user_state clk s' .awaitingName
      .ok (s', .askForName (pyGet appointment "service" (.str "")))
  | none => .ok (s, .askForTimeAgain)

/-- `ConversationHandler.handle_awaiting_name` (lines 185-195). -/
def handle_awaiting_name (clk : Clock) (s : Session) (text : String) : HRes :=
  if (pyStrip text).length > 1 then
    let appointment := dset (get_appointment_data s) "customer_name"
        (.str (pyStrip text))
    let s := set_appointment_data clk s appointment
    let s := set_user_state clk s .awaitingPhone
    .ok (s, .askForPhone)
  else
    .ok (s, .askForNameAgain)

/-- `ConversationHandler.handle_awaiting_phone` (lines 197-207): stores the
*stripped raw input* as `customer_phone` (no 254-normalization here). -/
def handle_awaiting_phone (clk : Clock) (s : Session) (text : String) : HRes :=
  if is_valid_phone text then
    let appointment := dset (get_appointment_data s) "customer_phone"
        (.str (pyStrip text))
    let s := set_appointment_data clk s appointment
    let s := set_user_state clk s .awaitingConfirmation
    .ok (s, .askForConfirmation appointment)
  else
    .ok (s, .askForPhoneAgain)

/-- `ConversationHandler.handle_awaiting_confirmation` (lines 209-232);
`saveOk` is the result of the external `self.bot.save_appointment` call.
Note the affirmative set lacks "ndio" and the negative set is only
{"no","cancel"}; the draft is not cleared on cancel. -/
def handle_awaiting_confirmation (clk : Clock) (saveOk : Bool) (s : Session)
    (text : String) : HRes :=
  let textLower := lowerStr text
  if textLower = "yes" || textLower = "y" || textLower = "confirm"
      || textLower = "ok" then
    let appointment := get_appointment_data s
    if saveOk then
      .ok (set_user_state clk s .awaitingPayment, .paymentOptions appointment)
    else
      .ok (set_user_state clk s .idle, .appointmentError)
  else if textLower = "no" || textLower = "cancel" then
    .ok (set_user_state clk s .idle, .appointmentCancelled)
  else
    .ok (s, .askForConfirmationAgain (get_appointment_data s))

/-- `ConversationHandler.process_message` (lines 20-51): add to history,
then dispatch on the stored state only — `last_activity` is never consulted
and `reset_to_idle_after_timeout` has no caller in this path. -/
def process_message (clk : Clock) (saveOk : Bool) (s : Session)
    (text : String) : HRes :=
  let s := add_to_conversation_history s "user" text
  match get_user_state s with
  | .idle => handle_idle_state clk s text
  | .viewingServices => handle_viewing_services clk s text
  | .awaitingService => handle_awaiting_service clk s text
  | .awaitingDate => handle_awaiting_date clk s text
  | .awaitingTime => handle_awaiting_time clk s text
  | .awaitingName => handle_awaiting_name clk s text
  | .awaitingPhone => handle_awaiting_phone clk s text
  | .awaitingConfirmation => handle_awaiting_confirmation clk saveOk s text
  | _ => handle_idle_state clk (set_user_state clk s .idle) text

/-- Projection: the conversation state after a handler result. -/
def resState (r : HRes) : Option ConversationState :=
  match r with
  | .ok (s, _) => some (get_user_state s)
  | .error _ => none

/-- Projection: a draft entry after a handler result. -/
def resDraftGet (r : HRes) (k : String) : Option PVal :=
  match r with
  | .ok (s, _) => dget (get_appointment_data s) k
  | .error _ => none

/-- Projection: the emitted response of a handler result. -/
def resResp (r : HRes) : Option Resp :=
  match r with
  | .ok (_, resp) => some resp
  | .error _ => none

-- ### whatsapp_conversation_handler.py (WhatsAppConversationHandler)

/-- `WhatsAppConversationHandler.is_valid_phone` (lines 338-342). -/
def wa_is_valid_phone (text : String) : Bool :=
  let cleaned := digitsOf text
  (cleaned.length = 10 && startsWithL cleaned ['0', '7'])
    || (cleaned.length = 12 && startsWithL cleaned ['2', '5', '4'])

/-- `WhatsAppConversationHandler.handle_awaiting_confirmation`
(lines 233-260): affirmative {"yes","ndio","y","confirm","ok"}, negative
{"no","hapana","cancel","change"}; a negative answer calls
`clear_user_state`, wiping the whole session including the draft. -/
def wa_handle_awaiting_confirmation (clk : Clock) (saveOk : Bool)
    (s : Session) (text : String) : HRes :=
  let textLower := lowerStr text
  if textLower = "yes" || textLower = "ndio" || textLower = "y"
      || textLower = "confirm" || textLower = "ok" then
    let appointment := get_appointment_data s
    if saveOk then
      .ok (set_user_state clk s .awaitingPayment, .paymentOptions appointment)
    else
      .ok (set_user_state clk s .idle, .appointmentError)
  else if textLower = "no" || textLower = "hapana" || textLower = "cancel"
      || textLower = "change" then
    .ok (clear_user_state s, .appointmentCancelled)
  else
    .ok (s, .askForConfirmationAgain (get_appointment_data s))

-- ### mpesa_service.py (MpesaService)

/-- `MpesaService._format_phone_number` (lines 257-276): strip non-digits,
normalize to `254XXXXXXXXX`; `None` for empty or unrecognized input. -/
def format_phone_number (phone : String) : Option String :=
  if phone = "" then none
  else
    let cleaned := digitsOf phone
    if startsWithL cleaned ['0'] && cleaned.length = 10 then
      some (String.mk ('2' :: '5' :: '4' :: cleaned.tail))
    else if startsWithL cleaned ['2', '5', '4'] && cleaned.length = 12 then
      some (String.mk cleaned)
    else if startsWithL cleaned ['7'] && cleaned.length = 9 then
      some (String.mk ('2' :: '5' :: '4' :: cleaned))
    else none

/-- `MpesaService.validate_phone_number` (lines 278-281). -/
def validate_phone_number (phone : String) : Bool :=
  match format_phone_number phone with
  | some f => startsWithL f.data ['2', '5', '4', '7'] && f.length = 12
  | none => false

-- ### message_handler.py (MessageHandler.detect_language_preference)

/-- Is `c` a regex word character (`\w`, ASCII model)? -/
def isWordChar (c : Char) : Bool := c.isAlphanum || c = '_'

/-- The maximal word-character runs of a text (accumulator is reversed). -/
def wordRuns : List Char → List Char → List (List Char)
  | [], cur => if cur.isEmpty then [] else [cur.reverse]
  | c :: rest, cur =>
      if isWordChar c then wordRuns rest (c :: cur)
      else if cur.isEmpty then wordRuns rest []
      else cur.reverse :: wordRuns rest []

/-- `re.search(r'\b(w1|...|wn)\b', text)`: since every alternative is a pure
word, a match is exactly a maximal word-character run equal to one of them. -/
def wordBoundaryHit (words : List String) (text : String) : Bool :=
  (wordRuns text.data []).any (fun run => words.any (fun w => run = w.data))

/-- Sheng marker words (message_handler.py line 433). -/
def sheng_words : List String :=
  ["mambo", "sasa", "niaje", "msee", "boss", "vipi", "poa", "sawa", "fiti", "vibe"]

/-- Swahili marker words (line 438). -/
def swahili_words : List String :=
  ["habari", "karibu", "asante", "tafadhali", "unataka", "nini", "huduma", "piga"]

/-- English marker words (line 443, the regex alternatives). -/
def english_words : List String :=
  ["hello", "hi", "hey", "book", "appointment", "service", "price", "please", "thank"]

/-- `MessageHandler.detect_language_preference` (lines 428-445): sheng
substring markers first, then Swahili substring markers (yielding
"swenglish"), then English word-boundary markers, default "swenglish". -/
def detect_language_preference (text : String) : String :=
  let textLower := lowerStr text
  if anyIn sheng_words textLower then "sheng"
  else if anyIn swahili_words textLower then "swenglish"
  else if wordBoundaryHit english_words textLower then "english"
  else "swenglish"

-- ### Heap-level model of the appointment-data store (for the aliasing
-- behaviour of get_appointment_data / set_appointment_data).
-- A Python dict is a heap object; `appointment_data[chat_id]` stores a
-- reference.  `get_appointment_data` returns `data.copy()` — a *fresh*
-- object with the same entries.  The context-timestamp bookkeeping of
-- set_appointment_data (lines 69-72) touches only conversation_context and
-- is modelled in the `Session` embedding above, not here.

/-- Object lookup by address. -/
def cellsGet : List (Nat × Dict) → Nat → Option Dict
  | [], _ => none
  | (a', d) :: rest, a => if a = a' then some d else cellsGet rest a

/-- Address lookup in `appointment_data` (chat id → object reference). -/
def addrLookup : List (String × Nat) → String → Option Nat
  | [], _ => none
  | (c', a) :: rest, c => if c = c' then some a else addrLookup rest c

/-- The object heap plus the `appointment_data` reference table. -/
structure StoreH where
  cells : List (Nat × Dict) := []
  next : Nat := 0
  appt : List (String × Nat) := []
  deriving DecidableEq, Repr

/-- The dict entries currently stored as `chat`'s draft. -/
def storedDraft (st : StoreH) (chat : String) : Dict :=
  match addrLookup st.appt chat with
  | some a => (cellsGet st.cells a).getD []
  | none => []

/-- `get_appointment_data` at heap level (conversation_states.py lines
56-60): `data = appointment_data.get(chat_id, {})`, `return data.copy()` —
allocate a fresh object holding the same entries and return its address. -/
def get_appointment_data_h (st : StoreH) (chat : String) : Nat × StoreH :=
  let d := storedDraft st chat
  (st.next, { st with cells := st.cells ++ [(st.next, d)], next := st.next + 1 })

/-- Apply `f` to the heap object at address `b`, leaving others in place. -/
def cellsUpd : List (Nat × Dict) → Nat → (Dict → Dict) → List (Nat × Dict)
  | [], _, _ => []
  | (a', d) :: rest, b, f =>
      if a' = b then (a', f d) :: cellsUpd rest b f
      else (a', d) :: cellsUpd rest b f

/-- Mutation `obj[k] = v` of the heap object at address `a` (what a caller
does to the dict returned by `get_appointment_data`). -/
def objSet (st : StoreH) (a : Nat) (k : String) (v : PVal) : StoreH :=
  { st with cells := cellsUpd st.cells a (fun d => dset d k v) }

/-- `set_appointment_data` at heap level (lines 62-72): create an empty dict
for the chat if absent, then in-place `appointment_data[chat_id].update(data)`. -/
def set_appointment_data_h (st : StoreH) (chat : String) (data : Dict) : StoreH :=
  match addrLookup st.appt chat with
  | some a =>
      { st with cells := cellsUpd st.cells a (fun d => dupdate d data) }
  | none =>
      let a := st.next
      { cells := cellsUpd (st.cells ++ [(a, [])]) a (fun d => dupdate d data),
        next := a + 1,
        appt := st.appt ++ [(chat, a)] }

/-- Heap well-formedness (true of every store built from the empty one):
every allocated address is below `next`, and every reference in
`appointment_data` points at a live object. -/
def wfStore (st : StoreH) : Prop :=
  (∀ c ∈ st.cells, c.1 < st.next) ∧ (∀ e ∈ st.appt, e.2 < st.next)
    ∧ (∀ e ∈ st.appt, (cellsGet st.cells e.2).isSome = true)

instance (st : StoreH) : Decidable (wfStore st) := by
  unfold wfStore; infer_instance

-- ### Dict lemmas

theorem oE_none_right {α : Type} (a : Option α) : oE a none = a := by
  cases a <;> rfl

theorem dget_dset (d : Dict) (a k : String) (b : PVal) :
    dget (dset d a b) k = if k = a then some b else dget d k := by
  induction d with
  | nil => simp [dset, dget]
  | cons p rest ih =>
    obtain ⟨k', v'⟩ := p
    by_cases h : k' = a
    · subst h
      by_cases hk : k = k' <;> simp [dset, dget, hk]
    · by_cases hk : k = k'
      · subst hk
        simp [dset, dget, h, Ne.symm h]
      · simp [dset, dget, h, hk, ih]

theorem dget_not_contains (d : Dict) (k : String) (h : containsKey d k = false) :
    dget d k = none := by
  induction d with
  | nil => rfl
  | cons p rest ih =>
    obtain ⟨k', v'⟩ := p
    simp [containsKey] at h
    simp [dget, h.1, ih h.2]

theorem dgetLast_not_contains (d : Dict) (k : String)
    (h : containsKey d k = false) : dgetLast d k = none := by
  induction d with
  | nil => rfl
  | cons p rest ih =>
    obtain ⟨k', v'⟩ := p
    simp [containsKey] at h
    simp [dgetLast, h.1, ih h.2, oE]

theorem containsKey_iff (d : Dict) (k : String) :
    containsKey d k = true ↔ k ∈ d.map Prod.fst := by
  induction d with
  | nil => simp [containsKey]
  | cons p rest ih =>
    obtain ⟨k', v'⟩ := p
    simp [containsKey, ih]

theorem dgetLast_wf (d : Dict) (k : String) (hwf : wfDict d) :
    dgetLast d k = dget d k := by
  induction d with
  | nil => rfl
  | cons p rest ih =>
    obtain ⟨k', v'⟩ := p
    unfold wfDict at hwf
    rw [List.map_cons, List.nodup_cons] at hwf
    obtain ⟨hnot, hrest⟩ := hwf
    by_cases hk : k = k'
    · subst hk
      have hc : containsKey rest k = false := by
        by_cases h : containsKey rest k = true
        · exact absurd ((containsKey_iff rest k).mp h) hnot
        · simpa using h
      simp [dgetLast, dget, dgetLast_not_contains rest k hc, oE]
    · simp [dgetLast, dget, hk, oE_none_right, ih hrest]

theorem keys_dset (d : Dict) (k : String) (v : PVal) :
    (dset d k v).map Prod.fst =
      if containsKey d k then d.map Prod.fst else d.map Prod.fst ++ [k] := by
  induction d with
  | nil => simp [dset, containsKey]
  | cons p rest ih =>
    obtain ⟨k', v'⟩ := p
    by_cases h : k' = k
    · subst h
      simp [dset, containsKey]
    · have h' : ¬ (k = k') := fun he => h he.symm
      simp only [dset, if_neg h, containsKey, List.map_cons, ih]
      rw [decide_eq_false h']
      simp only [Bool.false_or]
      split <;> simp

theorem wfDict_dset (d : Dict) (k : String) (v : PVal) (hwf : wfDict d) :
    wfDict (dset d k v) := by
  unfold wfDict at hwf ⊢
  rw [keys_dset]
  split
  · exact hwf
  · rename_i h
    have hk : k ∉ d.map Prod.fst := by
      intro hm
      rw [(containsKey_iff d k).mpr hm] at h
      exact h rfl
    simp [List.nodup_append, hwf]
    intro a ha
    exact hk (List.mem_map.mpr ⟨(k, a), ha, rfl⟩)

theorem dget_dupdate (new old : Dict) (k : String) :
    dget (dupdate old new) k = oE (dgetLast new k) (dget old k) := by
  induction new generalizing old with
  | nil => simp [dupdate, dgetLast, oE]
  | cons p rest ih =>
    obtain ⟨a, b⟩ := p
    have hstep : dupdate old ((a, b) :: rest) = dupdate (dset old a b) rest := rfl
    rw [hstep, ih]
    simp only [dgetLast]
    rw [dget_dset]
    cases hrest : dgetLast rest k with
    | some v => simp [oE]
    | none =>
      by_cases hk : k = a <;> simp [oE, hk]

-- ### Session-operation lemmas (all definitional)

theorem get_user_state_add_hist (s : Session) (r m : String) :
    get_user_state (add_to_conversation_history s r m) = get_user_state s := rfl

theorem get_appt_add_hist (s : Session) (r m : String) :
    get_appointment_data (add_to_conversation_history s r m) =
      get_appointment_data s := rfl

theorem get_user_state_set_user_state (clk : Clock) (s : Session)
    (st : ConversationState) : get_user_state (set_user_state clk s st) = st := rfl

theorem get_appt_set_user_state (clk : Clock) (s : Session)
    (st : ConversationState) :
    get_appointment_data (set_user_state clk s st) = get_appointment_data s := rfl

theorem get_appt_set_appt (clk : Clock) (s : Session) (d : Dict) :
    get_appointment_data (set_appointment_data clk s d) =
      dupdate (get_appointment_data s) d := rfl

-- ### Dispatch lemmas: process_message routes on the stored state only

theorem process_message_at_idle (clk : Clock) (ok : Bool) (s : Session)
    (text : String) (h : get_user_state s = .idle) :
    process_message clk ok s text =
      handle_idle_state clk (add_to_conversation_history s "user" text) text := by
  unfold process_message
  simp only [get_user_state_add_hist, h]

theorem process_message_at_awaiting_date (clk : Clock) (ok : Bool) (s : Session)
    (text : String) (h : get_user_state s = .awaitingDate) :
    process_message clk ok s text =
      handle_awaiting_date clk (add_to_conversation_history s "user" text) text := by
  unfold process_message
  simp only [get_user_state_add_hist, h]

theorem process_message_at_awaiting_name (clk : Clock) (ok : Bool) (s : Session)
    (text : String) (h : get_user_state s = .awaitingName) :
    process_message clk ok s text =
      handle_awaiting_name clk (add_to_conversation_history s "user" text) text := by
  unfold process_message
  simp only [get_user_state_add_hist, h]

theorem process_message_at_awaiting_phone (clk : Clock) (ok : Bool) (s : Session)
    (text : String) (h : get_user_state s = .awaitingPhone) :
    process_message clk ok s text =
      handle_awaiting_phone clk (add_to_conversation_history s "user" text) text := by
  unfold process_message
  simp only [get_user_state_add_hist, h]

theorem process_message_at_confirmation (clk : Clock) (ok : Bool) (s : Session)
    (text : String) (h : get_user_state s = .awaitingConfirmation) :
    process_message clk ok s text =
      handle_awaiting_confirmation clk ok (add_to_conversation_history s "user" text) text := by
  unfold process_message
  simp only [get_user_state_add_hist, h]

theorem process_message_at_awaiting_service (clk : Clock) (ok : Bool)
    (s : Session) (text : String) (h : get_user_state s = .awaitingService) :
    process_message clk ok s text =
      handle_awaiting_service clk (add_to_conversation_history s "user" text) text := by
  unfold process_message
  simp only [get_user_state_add_hist, h]

theorem process_message_at_awaiting_time (clk : Clock) (ok : Bool)
    (s : Session) (text : String) (h : get_user_state s = .awaitingTime) :
    process_message clk ok s text =
      handle_awaiting_time clk (add_to_conversation_history s "user" text) text := by
  unfold process_message
  simp only [get_user_state_add_hist, h]

theorem process_message_at_viewing (clk : Clock) (ok : Bool)
    (s : Session) (text : String) (h : get_user_state s = .viewingServices) :
    process_message clk ok s text =
      handle_viewing_services clk (add_to_conversation_history s "user" text) text := by
  unfold process_message
  simp only [get_user_state_add_hist, h]

theorem process_message_at_awaiting_payment (clk : Clock) (ok : Bool)
    (s : Session) (text : String) (h : get_user_state s = .awaitingPayment) :
    process_message clk ok s text =
      handle_idle_state clk
        (set_user_state clk (add_to_conversation_history s "user" text) .idle) text := by
  unfold process_message
  simp only [get_user_state_add_hist, h]

theorem process_message_at_choosing_language (clk : Clock) (ok : Bool)
    (s : Session) (text : String) (h : get_user_state s = .choosingLanguage) :
    process_message clk ok s text =
      handle_idle_state clk
        (set_user_state clk (add_to_conversation_history s "user" text) .idle) text := by
  unfold process_message
  simp only [get_user_state_add_hist, h]

-- ### Composite dict lemmas

/-- Writing one key into a copy of the stored draft and merging the copy back
leaves that key at the written value (real drafts have unique keys). -/
theorem dget_dupdate_dset_self (d : Dict) (k : String) (v : PVal)
    (hwf : wfDict d) : dget (dupdate d (dset d k v)) k = some v := by
  rw [dget_dupdate, dgetLast_wf _ _ (wfDict_dset d k v hwf), dget_dset]
  simp [oE]

/-- Merging a unique-keyed dict into anything realizes its lookups. -/
theorem dget_dupdate_of_wf (d new : Dict) (k : String) (v : PVal)
    (hwf : wfDict new) (h : dget new k = some v) :
    dget (dupdate d new) k = some v := by
  rw [dget_dupdate, dgetLast_wf _ _ hwf, h]
  rfl

-- ### startsWithL / matchBody characterizations

theorem startsWithL_iff_append (l p : List Char) :
    startsWithL l p = true ↔ ∃ t, l = p ++ t := by
  induction p generalizing l with
  | nil => simp [startsWithL]
  | cons b bs ih =>
    cases l with
    | nil => simp [startsWithL]
    | cons a as =>
      simp only [startsWithL, Bool.and_eq_true, decide_eq_true_eq, ih,
        List.cons_append, List.cons.injEq]
      constructor
      · rintro ⟨rfl, t, rfl⟩
        exact ⟨t, rfl, rfl⟩
      · rintro ⟨t, rfl, rfl⟩
        exact ⟨rfl, t, rfl⟩

theorem matchBody_iff (l : List Char) (hall : ∀ x ∈ l, x.isDigit = true) :
    matchBody l = true ↔
      ∃ d rest, l = d :: rest ∧ (d = '7' ∨ d = '1') ∧ rest.length = 8 := by
  cases l with
  | nil => simp [matchBody]
  | cons d rest =>
    have hrest : rest.all Char.isDigit = true := by
      rw [List.all_eq_true]
      intro x hx
      simpa using hall x (List.mem_cons_of_mem d hx)
    simp only [matchBody, Bool.and_eq_true, Bool.or_eq_true, decide_eq_true_eq,
      hrest, and_true]
    constructor
    · rintro ⟨hd, hlen⟩
      exact ⟨d, rest, rfl, hd, hlen⟩
    · rintro ⟨d', rest', heq, hd, hlen⟩
      cases heq
      exact ⟨hd, hlen⟩

-- ### Heap lemmas

theorem cellsGet_append (cs cs' : List (Nat × Dict)) (a : Nat) :
    cellsGet (cs ++ cs') a = oE (cellsGet cs a) (cellsGet cs' a) := by
  induction cs with
  | nil => simp [cellsGet, oE]
  | cons c rest ih =>
    obtain ⟨a', d⟩ := c
    by_cases h : a = a' <;> simp [cellsGet, h, ih, oE]

theorem cellsGet_none_of_lt (cs : List (Nat × Dict)) (n : Nat)
    (h : ∀ c ∈ cs, c.1 < n) : cellsGet cs n = none := by
  induction cs with
  | nil => rfl
  | cons c rest ih =>
    obtain ⟨a', d⟩ := c
    have h1 : a' < n := h (a', d) (List.mem_cons_self _ _)
    have h2 : ¬ (n = a') := fun he => absurd (he ▸ h1) (lt_irrefl n)
    simp [cellsGet, h2]
    exact ih (fun c hc => h c (List.mem_cons_of_mem _ hc))

theorem cellsGet_upd (cs : List (Nat × Dict)) (b a : Nat) (f : Dict → Dict) :
    cellsGet (cellsUpd cs b f) a =
      if a = b then (cellsGet cs a).map f else cellsGet cs a := by
  induction cs with
  | nil => simp [cellsUpd, cellsGet]
  | cons c rest ih =>
    obtain ⟨a', d⟩ := c
    by_cases hb : a' = b
    · subst hb
      by_cases ha : a = a' <;> simp [cellsUpd, cellsGet, ha, ih]
    · by_cases ha : a = a'
      · subst ha
        have hab : ¬ (a = b) := hb
        simp [cellsUpd, cellsGet, hb, ih, hab]
      · simp [cellsUpd, cellsGet, hb, ha, ih]

theorem addrLookup_mem (tbl : List (String × Nat)) (chat : String) (a : Nat)
    (h : addrLookup tbl chat = some a) : (chat, a) ∈ tbl := by
  induction tbl with
  | nil => simp [addrLookup] at h
  | cons e rest ih =>
    obtain ⟨c', a'⟩ := e
    by_cases hc : chat = c'
    · subst hc
      simp [addrLookup] at h
      simp [h]
    · simp [addrLookup, hc] at h
      exact List.mem_cons_of_mem _ (ih h)

theorem addrLookup_append_fresh (tbl : List (String × Nat)) (chat : String)
    (a : Nat) (h : addrLookup tbl chat = none) :
    addrLookup (tbl ++ [(chat, a)]) chat = some a := by
  induction tbl with
  | nil => simp [addrLookup]
  | cons e rest ih =>
    obtain ⟨c', a'⟩ := e
    by_cases hc : chat = c'
    · simp [addrLookup, hc] at h
    · simp [addrLookup, hc] at h ⊢
      exact ih h

-- ### Claim theorems

/-- Claim C5 (code_bug): the claim says an unparseable date in AWAITING_DATE
is handled without exception, re-prompting and leaving state and draft
unchanged.  The code instead raises `UnboundLocalError`: the re-prompt branch
of `ConversationHandler.handle_awaiting_date` evaluates
`appointment.get('service', '')` but the local `appointment` is only
assigned in the parseable branch (its WhatsApp twin fetches the draft first,
showing the intended behaviour).  The exception propagates out of
`process_message`, which has no try/except. -/
theorem claim_C5_bug (clk : Clock) (ok : Bool) (s : Session) (text : String)
    (hstate : get_user_state s = .awaitingDate)
    (hdate : parse_date clk (lowerStr text) = none) :
    process_message clk ok s text = .error (.unboundLocal "appointment") := by
  rw [process_message_at_awaiting_date clk ok s text hstate]
  unfold handle_awaiting_date
  rw [hdate]

/-- Witness for C5 at the failing input: state AWAITING_DATE, message
"blah". -/
theorem claim_C5_bug_witness :
    process_message ⟨0, "2026-01-01", "2026-01-02"⟩ true
        { userState := some ConversationState.awaitingDate } "blah" =
      .error (.unboundLocal "appointment") :=
  claim_C5_bug _ _ _ _ rfl (by decide)

/-- Claim C9 (confirmed): `detect_language_preference` always returns one of
sheng / swenglish / english, testing sheng markers first, then Swahili
markers (yielding swenglish), then English word-boundary markers, and
defaults to swenglish; the first matching marker set decides. -/
theorem claim_C9_language (text : String) :
    (detect_language_preference text = "sheng"
      ∨ detect_language_preference text = "swenglish"
      ∨ detect_language_preference text = "english")
    ∧ (anyIn sheng_words (lowerStr text) = true →
        detect_language_preference text = "sheng")
    ∧ (anyIn sheng_words (lowerStr text) = false →
        anyIn swahili_words (lowerStr text) = true →
        detect_language_preference text = "swenglish")
    ∧ (anyIn sheng_words (lowerStr text) = false →
        anyIn swahili_words (lowerStr text) = false →
        wordBoundaryHit english_words (lowerStr text) = true →
        detect_language_preference text = "english")
    ∧ (anyIn sheng_words (lowerStr text) = false →
        anyIn swahili_words (lowerStr text) = false →
        wordBoundaryHit english_words (lowerStr text) = false →
        detect_language_preference text = "swenglish") := by
  cases h1 : anyIn sheng_words (lowerStr text) <;>
    cases h2 : anyIn swahili_words (lowerStr text) <;>
      cases h3 : wordBoundaryHit english_words (lowerStr text) <;>
        simp [detect_language_preference, h1, h2, h3]

/-- Witness for C9: a sheng marker, a Swahili marker, an English word and an
unmarked text each take the documented branch. -/
theorem claim_C9_language_witness :
    detect_language_preference "mambo" = "sheng"
    ∧ detect_language_preference "habari yako" = "swenglish"
    ∧ detect_language_preference "please help" = "english"
    ∧ detect_language_preference "zzz qqq" = "swenglish" :=
  ⟨(claim_C9_language "mambo").2.1 (by decide),
   (claim_C9_language "habari yako").2.2.1 (by decide) (by decide),
   (claim_C9_language "please help").2.2.2.1 (by decide) (by decide) (by decide),
   (claim_C9_language "zzz qqq").2.2.2.2 (by decide) (by decide) (by decide)⟩

/-- Counterexample for C6: the bare 9-digit form "712345678" (9 digits
starting with 7) is rejected by both AWAITING_PHONE validators, contrary to
the claim that it is accepted. -/
theorem claim_C6_counterexample :
    is_valid_phone "712345678" = false
    ∧ wa_is_valid_phone "712345678" = false
    ∧ (digitsOf "712345678").length = 9
    ∧ startsWithL (digitsOf "712345678") ['7'] = true := by decide

/-- Claim C6 (corrected): after stripping non-digits, the AWAITING_PHONE
validator of ConversationHandler accepts exactly `0[17]` + 8 digits
(10 digits) and `254[17]` + 8 digits (12 digits; a leading `+` is stripped
away before matching); the bare 9-digit `7XXXXXXXX` form is rejected there,
and also by the WhatsApp validator (which accepts exactly `07` + 8 digits or
`254` + 9 digits); only `MpesaService.validate_phone_number` accepts the
bare 9-digit form. -/
theorem claim_C6_amended (text : String) :
    (is_valid_phone text = true ↔
      (∃ d rest, digitsOf text = '0' :: d :: rest
          ∧ (d = '7' ∨ d = '1') ∧ rest.length = 8)
      ∨ (∃ d rest, digitsOf text = '2' :: '5' :: '4' :: d :: rest
          ∧ (d = '7' ∨ d = '1') ∧ rest.length = 8))
    ∧ (∀ rest, digitsOf text = '7' :: rest → is_valid_phone text = false)
    ∧ (wa_is_valid_phone text = true ↔
      ((digitsOf text).length = 10 ∧ ∃ t, digitsOf text = '0' :: '7' :: t)
      ∨ ((digitsOf text).length = 12 ∧ ∃ t, digitsOf text = '2' :: '5' :: '4' :: t))
    ∧ validate_phone_number "712345678" = true := by
  have hall : ∀ x ∈ digitsOf text, x.isDigit = true := by
    intro x hx
    exact (List.mem_filter.mp hx).2
  have hiff : is_valid_phone text = true ↔
      (∃ d rest, digitsOf text = '0' :: d :: rest
          ∧ (d = '7' ∨ d = '1') ∧ rest.length = 8)
      ∨ (∃ d rest, digitsOf text = '2' :: '5' :: '4' :: d :: rest
          ∧ (d = '7' ∨ d = '1') ∧ rest.length = 8) := by
    unfold is_valid_phone kenyanRegex
    simp only [Bool.or_eq_true, Bool.and_eq_true]
    constructor
    · rintro ((⟨hsw, hb⟩ | ⟨hsw, hb⟩) | ⟨hsw, hb⟩)
      · obtain ⟨t, ht⟩ := (startsWithL_iff_append _ _).mp hsw
        exact absurd (hall '+' (by rw [ht]; exact List.mem_cons_self _ _)) (by decide)
      · obtain ⟨t, ht⟩ := (startsWithL_iff_append _ _).mp hsw
        have hdrop : (digitsOf text).drop 3 = t := by rw [ht]; rfl
        rw [hdrop] at hb
        have hallt : ∀ x ∈ t, x.isDigit = true := by
          intro x hx
          exact hall x (by rw [ht]; exact List.mem_append_right _ hx)
        obtain ⟨d, rest, ht2, hd, hlen⟩ := (matchBody_iff t hallt).mp hb
        right
        exact ⟨d, rest, by rw [ht, ht2]; rfl, hd, hlen⟩
      · obtain ⟨t, ht⟩ := (startsWithL_iff_append _ _).mp hsw
        have hdrop : (digitsOf text).drop 1 = t := by rw [ht]; rfl
        rw [hdrop] at hb
        have hallt : ∀ x ∈ t, x.isDigit = true := by
          intro x hx
          exact hall x (by rw [ht]; exact List.mem_append_right _ hx)
        obtain ⟨d, rest, ht2, hd, hlen⟩ := (matchBody_iff t hallt).mp hb
        left
        exact ⟨d, rest, by rw [ht, ht2]; rfl, hd, hlen⟩
    · rintro (⟨d, rest, heq, hd, hlen⟩ | ⟨d, rest, heq, hd, hlen⟩)
      · right
        refine ⟨(startsWithL_iff_append _ _).mpr ⟨d :: rest, by rw [heq]; rfl⟩, ?_⟩
        have hdrop : (digitsOf text).drop 1 = d :: rest := by rw [heq]; rfl
        rw [hdrop]
        refine (matchBody_iff _ ?_).mpr ⟨d, rest, rfl, hd, hlen⟩
        intro x hx
        exact hall x (by rw [heq]; exact List.mem_cons_of_mem _ hx)
      · left; right
        refine ⟨(startsWithL_iff_append _ _).mpr ⟨d :: rest, by rw [heq]; rfl⟩, ?_⟩
        have hdrop : (digitsOf text).drop 3 = d :: rest := by rw [heq]; rfl
        rw [hdrop]
        refine (matchBody_iff _ ?_).mpr ⟨d, rest, rfl, hd, hlen⟩
        intro x hx
        exact hall x (by
          rw [heq]
          exact List.mem_cons_of_mem _ (List.mem_cons_of_mem _ (List.mem_cons_of_mem _ hx)))
  refine ⟨hiff, ?_, ?_, by decide⟩
  · intro rest heq
    cases hv : is_valid_phone text with
    | false => rfl
    | true =>
      exfalso
      rcases hiff.mp hv with ⟨d, r2, he2, _, _⟩ | ⟨d, r2, he2, _, _⟩
      · rw [heq, List.cons.injEq] at he2
        exact absurd he2.1 (by decide)
      · rw [heq, List.cons.injEq] at he2
        exact absurd he2.1 (by decide)
  · unfold wa_is_valid_phone
    simp only [Bool.or_eq_true, Bool.and_eq_true, decide_eq_true_eq,
      startsWithL_iff_append]
    constructor
    · rintro (⟨hlen, t, ht⟩ | ⟨hlen, t, ht⟩)
      · exact Or.inl ⟨hlen, t, by simpa using ht⟩
      · exact Or.inr ⟨hlen, t, by simpa using ht⟩
    · rintro (⟨hlen, t, ht⟩ | ⟨hlen, t, ht⟩)
      · exact Or.inl ⟨hlen, t, by simpa using ht⟩
      · exact Or.inr ⟨hlen, t, by simpa using ht⟩

/-- Witness for C6: the claimed-accepted bare form is rejected, while the
0-prefixed form is accepted. -/
theorem claim_C6_amended_witness :
    is_valid_phone "0712345678" = true ∧ is_valid_phone "712345678" = false :=
  ⟨(claim_C6_amended "0712345678").1.mpr
      (Or.inl ⟨'7', ['1', '2', '3', '4', '5', '6', '7', '8'], by decide,
        Or.inl rfl, by decide⟩),
   (claim_C6_amended "712345678").2.1 ['1', '2', '3', '4', '5', '6', '7', '8']
      (by decide)⟩

/-- A canonical `254XXXXXXXXX` output of `_format_phone_number` maps to
itself. -/
theorem format_phone_number_canon (t : List Char)
    (hall : ∀ c ∈ t, c.isDigit = true) (hlen : t.length = 9) :
    format_phone_number (String.mk ('2' :: '5' :: '4' :: t)) =
      some (String.mk ('2' :: '5' :: '4' :: t)) := by
  have hne : String.mk ('2' :: '5' :: '4' :: t) ≠ "" := by
    intro he
    have hdata : ('2' :: '5' :: '4' :: t) = ("" : String).data := by rw [← he]
    simp at hdata
  have hd : digitsOf (String.mk ('2' :: '5' :: '4' :: t)) = '2' :: '5' :: '4' :: t := by
    show ('2' :: '5' :: '4' :: t).filter Char.isDigit = '2' :: '5' :: '4' :: t
    rw [List.filter_eq_self]
    intro a ha
    simp at ha
    rcases ha with rfl | rfl | rfl | ha
    · decide
    · decide
    · decide
    · exact hall a ha
  simp only [format_phone_number, if_neg hne, hd]
  simp [startsWithL, hlen]

/-- Claim C8 (confirmed): `_format_phone_number` is idempotent on success —
whenever it returns a number, feeding that number back returns it
unchanged. -/
theorem claim_C8_idempotent (x y : String)
    (h : format_phone_number x = some y) :
    format_phone_number y = some y := by
  have hall : ∀ c ∈ digitsOf x, c.isDigit = true := by
    intro c hc
    exact (List.mem_filter.mp hc).2
  simp only [format_phone_number] at h
  by_cases hx : x = ""
  · rw [if_pos hx] at h
    cases h
  · rw [if_neg hx] at h
    by_cases h1 : (startsWithL (digitsOf x) ['0'] && (digitsOf x).length = 10) = true
    · rw [if_pos h1] at h
      have hy : y = String.mk ('2' :: '5' :: '4' :: (digitsOf x).tail) :=
        (Option.some.inj h).symm
      simp only [Bool.and_eq_true, decide_eq_true_eq] at h1
      obtain ⟨t, ht⟩ := (startsWithL_iff_append _ _).mp h1.1
      have htail : (digitsOf x).tail = t := by rw [ht]; rfl
      have hlen : t.length = 9 := by
        have h10 := h1.2
        rw [ht] at h10
        simpa using h10
      have hallt : ∀ c ∈ t, c.isDigit = true := by
        intro c hc
        exact hall c (by rw [ht]; exact List.mem_cons_of_mem _ hc)
      rw [hy, htail]
      exact format_phone_number_canon t hallt hlen
    · rw [if_neg h1] at h
      by_cases h2 : (startsWithL (digitsOf x) ['2', '5', '4']
          && (digitsOf x).length = 12) = true
      · rw [if_pos h2] at h
        have hy : y = String.mk (digitsOf x) := (Option.some.inj h).symm
        simp only [Bool.and_eq_true, decide_eq_true_eq] at h2
        obtain ⟨t, ht⟩ := (startsWithL_iff_append _ _).mp h2.1
        have hlen : t.length = 9 := by
          have h12 := h2.2
          rw [ht] at h12
          simpa using h12
        have hallt : ∀ c ∈ t, c.isDigit = true := by
          intro c hc
          refine hall c ?_
          rw [ht]
          exact List.mem_cons_of_mem _ (List.mem_cons_of_mem _ (List.mem_cons_of_mem _ hc))
        rw [hy, ht]
        exact format_phone_number_canon t hallt hlen
      · rw [if_neg h2] at h
        by_cases h3 : (startsWithL (digitsOf x) ['7'] && (digitsOf x).length = 9) = true
        · rw [if_pos h3] at h
          have hy : y = String.mk ('2' :: '5' :: '4' :: digitsOf x) :=
            (Option.some.inj h).symm
          simp only [Bool.and_eq_true, decide_eq_true_eq] at h3
          rw [hy]
          exact format_phone_number_canon (digitsOf x) hall h3.2
        · rw [if_neg h3] at h
          cases h

/-- Witness for C8: normalizing "0712345678" yields "254712345678", and
normalizing that output returns it unchanged. -/
theorem claim_C8_idempotent_witness :
    format_phone_number "0712345678" = some "254712345678"
    ∧ format_phone_number "254712345678" = some "254712345678" :=
  ⟨rfl, claim_C8_idempotent "0712345678" "254712345678" rfl⟩

/-- Counterexample for C1: with a valid phone input the state does advance,
but the stored `customer_phone` is the raw stripped input "0712345678", not
the normalized "254712345678" the claim requires. -/
theorem claim_C1_counterexample :
    resState (process_message ⟨0, "2026-01-01", "2026-01-02"⟩ true
        { userState := some ConversationState.awaitingPhone } "0712345678") =
      some ConversationState.awaitingConfirmation
    ∧ resDraftGet (process_message ⟨0, "2026-01-01", "2026-01-02"⟩ true
        { userState := some ConversationState.awaitingPhone } "0712345678")
        "customer_phone" = some (PVal.str "0712345678")
    ∧ resDraftGet (process_message ⟨0, "2026-01-01", "2026-01-02"⟩ true
        { userState := some ConversationState.awaitingPhone } "0712345678")
        "customer_phone" ≠ some (PVal.str "254712345678") := by
  refine ⟨rfl, rfl, by decide⟩

/-- Claim C1 (corrected): a valid phone at AWAITING_PHONE moves the session
to AWAITING_CONFIRMATION, but `handle_awaiting_phone` stores `text.strip()`
— the raw input — as `customer_phone`; the canonical `254XXXXXXXXX` form is
produced only by `MpesaService._format_phone_number` (e.g. at payment
time). -/
theorem claim_C1_amended (clk : Clock) (ok : Bool) (s : Session)
    (text : String) (hstate : get_user_state s = .awaitingPhone)
    (hwf : wfDict (get_appointment_data s))
    (hvalid : is_valid_phone text = true) :
    resState (process_message clk ok s text) =
      some ConversationState.awaitingConfirmation
    ∧ resDraftGet (process_message clk ok s text) "customer_phone" =
      some (PVal.str (pyStrip text))
    ∧ format_phone_number "0712345678" = some "254712345678" := by
  rw [process_message_at_awaiting_phone clk ok s text hstate]
  simp only [handle_awaiting_phone, hvalid, if_true]
  refine ⟨rfl, ?_, rfl⟩
  show dget (dupdate (get_appointment_data s)
      (dset (get_appointment_data s) "customer_phone" (PVal.str (pyStrip text))))
      "customer_phone" = some (PVal.str (pyStrip text))
  exact dget_dupdate_dset_self _ _ _ hwf

/-- Witness for C1 at the spec's own example input. -/
theorem claim_C1_amended_witness :
    resState (process_message ⟨0, "2026-01-01", "2026-01-02"⟩ true
        { userState := some ConversationState.awaitingPhone } "0712345678") =
      some ConversationState.awaitingConfirmation
    ∧ resDraftGet (process_message ⟨0, "2026-01-01", "2026-01-02"⟩ true
        { userState := some ConversationState.awaitingPhone } "0712345678")
        "customer_phone" = some (PVal.str (pyStrip "0712345678"))
    ∧ format_phone_number "0712345678" = some "254712345678" :=
  claim_C1_amended _ _ _ _ rfl (by decide) (by decide)

/-- Counterexample for C2: a session at AWAITING_NAME whose last_activity is
40 minutes old is still dispatched to the name handler — the message
"hello" is stored as the customer name, the state advances to
AWAITING_PHONE (not IDLE treatment), and the old draft survives. -/
theorem claim_C2_counterexample :
    (100 : Nat) - 60 > 30
    ∧ resState (process_message ⟨100, "2026-10-12", "2026-10-13"⟩ true
        { userState := some ConversationState.awaitingName,
          appointment := some [("service", PVal.str "Haircut & Styling")],
          ctx := some { lastActivity := some 60 } } "hello") =
      some ConversationState.awaitingPhone
    ∧ resState (process_message ⟨100, "2026-10-12", "2026-10-13"⟩ true
        { userState := some ConversationState.awaitingName,
          appointment := some [("service", PVal.str "Haircut & Styling")],
          ctx := some { lastActivity := some 60 } } "hello") ≠
      some ConversationState.idle
    ∧ resDraftGet (process_message ⟨100, "2026-10-12", "2026-10-13"⟩ true
        { userState := some ConversationState.awaitingName,
          appointment := some [("service", PVal.str "Haircut & Styling")],
          ctx := some { lastActivity := some 60 } } "hello") "service" =
      some (PVal.str "Haircut & Styling")
    ∧ resDraftGet (process_message ⟨100, "2026-10-12", "2026-10-13"⟩ true
        { userState := some ConversationState.awaitingName,
          appointment := some [("service", PVal.str "Haircut & Styling")],
          ctx := some { lastActivity := some 60 } } "hello") "customer_name" =
      some (PVal.str "hello") := by
  refine ⟨by decide, rfl, by decide, rfl, rfl⟩

/-- Claim C2 (corrected): `process_message` never consults `last_activity` —
a stale session (here AWAITING_NAME, more than 30 minutes old) is handled by
its stored state and its draft is kept.  The helper
`reset_to_idle_after_timeout` does implement the 30-minute full-session
clear, but no message path ever calls it. -/
theorem claim_C2_amended (clk : Clock) (ok : Bool) (s : Session)
    (text : String) (la : Nat)
    (hla : (get_conversation_context s).lastActivity = some la)
    (hstale : clk.nowMin - la > 30)
    (hstate : get_user_state s = .awaitingName)
    (hlen : (pyStrip text).length > 1)
    (hwf : wfDict (get_appointment_data s)) :
    reset_to_idle_after_timeout clk s = (true, emptySession)
    ∧ resState (process_message clk ok s text) =
      some ConversationState.awaitingPhone
    ∧ resDraftGet (process_message clk ok s text) "customer_name" =
      some (PVal.str (pyStrip text)) := by
  refine ⟨?_, ?_, ?_⟩
  · simp only [reset_to_idle_after_timeout]
    rw [hla]
    simp [hstale, clear_user_state]
  · rw [process_message_at_awaiting_name clk ok s text hstate]
    simp only [handle_awaiting_name]
    rw [if_pos hlen]
    rfl
  · rw [process_message_at_awaiting_name clk ok s text hstate]
    simp only [handle_awaiting_name]
    rw [if_pos hlen]
    show dget (dupdate (get_appointment_data s)
        (dset (get_appointment_data s) "customer_name" (PVal.str (pyStrip text))))
        "customer_name" = some (PVal.str (pyStrip text))
    exact dget_dupdate_dset_self _ _ _ hwf

/-- Witness for C2: a concrete stale AWAITING_NAME session processing
"Jane". -/
theorem claim_C2_amended_witness :
    reset_to_idle_after_timeout ⟨100, "2026-10-12", "2026-10-13"⟩
        { userState := some ConversationState.awaitingName,
          appointment := some [("service", PVal.str "Haircut & Styling")],
          ctx := some { lastActivity := some 60 } } = (true, emptySession)
    ∧ resState (process_message ⟨100, "2026-10-12", "2026-10-13"⟩ true
        { userState := some ConversationState.awaitingName,
          appointment := some [("service", PVal.str "Haircut & Styling")],
          ctx := some { lastActivity := some 60 } } "Jane") =
      some ConversationState.awaitingPhone
    ∧ resDraftGet (process_message ⟨100, "2026-10-12", "2026-10-13"⟩ true
        { userState := some ConversationState.awaitingName,
          appointment := some [("service", PVal.str "Haircut & Styling")],
          ctx := some { lastActivity := some 60 } } "Jane") "customer_name" =
      some (PVal.str (pyStrip "Jane")) :=
  claim_C2_amended _ _ _ _ 60 rfl (by decide) rfl (by decide) (by decide)

/-- Counterexample for C3: the cancel word "no" in AWAITING_NAME does not go
to IDLE — it is stored as the customer name and the flow advances to
AWAITING_PHONE; and in ConversationHandler "hapana" at AWAITING_CONFIRMATION
merely re-shows the summary. -/
theorem claim_C3_counterexample :
    resState (process_message ⟨0, "2026-01-01", "2026-01-02"⟩ true
        { userState := some ConversationState.awaitingName } "no") =
      some ConversationState.awaitingPhone
    ∧ resState (process_message ⟨0, "2026-01-01", "2026-01-02"⟩ true
        { userState := some ConversationState.awaitingName } "no") ≠
      some ConversationState.idle
    ∧ resDraftGet (process_message ⟨0, "2026-01-01", "2026-01-02"⟩ true
        { userState := some ConversationState.awaitingName } "no")
        "customer_name" = some (PVal.str "no")
    ∧ resState (process_message ⟨0, "2026-01-01", "2026-01-02"⟩ true
        { userState := some ConversationState.awaitingConfirmation } "hapana") =
      some ConversationState.awaitingConfirmation := by
  refine ⟨rfl, by decide, rfl, rfl⟩

/-- Claim C3 (corrected): cancel words are *recognized* as cancellation only
at AWAITING_CONFIRMATION, where ConversationHandler honors only
"no"/"cancel" ("hapana" re-shows the summary) and the WhatsApp handler
honors "no"/"hapana"/"cancel"/"change" and clears the session.  In the
input-collecting states they do not cancel: at AWAITING_NAME a cancel word
is stored as the customer name and the flow advances to AWAITING_PHONE; at
AWAITING_DATE it is unparseable and triggers the UnboundLocalError re-prompt
bug; at AWAITING_SERVICE, AWAITING_TIME and AWAITING_PHONE it re-prompts in
place, leaving state and draft unchanged.  Separately, VIEWING_SERVICES
re-dispatches any unrecognized input — cancel word or not — to the idle
handler and ends at IDLE, and states outside the dispatch table (e.g.
AWAITING_PAYMENT, CHOOSING_LANGUAGE) are reset to IDLE on *any* input, not
specifically on cancel words. -/
theorem claim_C3_amended (clk : Clock) (ok : Bool) (s : Session) :
    (get_user_state s = .awaitingConfirmation →
      resState (process_message clk ok s "no") = some ConversationState.idle
      ∧ resState (process_message clk ok s "cancel") = some ConversationState.idle
      ∧ resState (process_message clk ok s "hapana") =
        some ConversationState.awaitingConfirmation)
    ∧ (get_user_state s = .awaitingName →
      (wfDict (get_appointment_data s) →
        resState (process_message clk ok s "no") =
          some ConversationState.awaitingPhone
        ∧ resDraftGet (process_message clk ok s "no") "customer_name" =
          some (PVal.str "no"))
      ∧ resState (process_message clk ok s "cancel") =
        some ConversationState.awaitingPhone
      ∧ resState (process_message clk ok s "hapana") =
        some ConversationState.awaitingPhone)
    ∧ (get_user_state s = .awaitingDate →
      process_message clk ok s "no" = .error (.unboundLocal "appointment")
      ∧ process_message clk ok s "cancel" = .error (.unboundLocal "appointment")
      ∧ process_message clk ok s "hapana" = .error (.unboundLocal "appointment"))
    ∧ (get_user_state s = .awaitingService → ∀ k,
      resState (process_message clk ok s "no") =
        some ConversationState.awaitingService
      ∧ resState (process_message clk ok s "cancel") =
        some ConversationState.awaitingService
      ∧ resState (process_message clk ok s "hapana") =
        some ConversationState.awaitingService
      ∧ resDraftGet (process_message clk ok s "no") k =
        dget (get_appointment_data s) k)
    ∧ (get_user_state s = .awaitingTime → ∀ k,
      resState (process_message clk ok s "no") =
        some ConversationState.awaitingTime
      ∧ resState (process_message clk ok s "cancel") =
        some ConversationState.awaitingTime
      ∧ resState (process_message clk ok s "hapana") =
        some ConversationState.awaitingTime
      ∧ resDraftGet (process_message clk ok s "no") k =
        dget (get_appointment_data s) k)
    ∧ (get_user_state s = .awaitingPhone → ∀ k,
      resState (process_message clk ok s "no") =
        some ConversationState.awaitingPhone
      ∧ resState (process_message clk ok s "cancel") =
        some ConversationState.awaitingPhone
      ∧ resState (process_message clk ok s "hapana") =
        some ConversationState.awaitingPhone
      ∧ resDraftGet (process_message clk ok s "no") k =
        dget (get_appointment_data s) k)
    ∧ (get_user_state s = .viewingServices →
      resState (process_message clk ok s "no") = some ConversationState.idle
      ∧ resState (process_message clk ok s "xyz") = some ConversationState.idle)
    ∧ (get_user_state s = .awaitingPayment →
      resState (process_message clk ok s "no") = some ConversationState.idle
      ∧ resState (process_message clk ok s "xyz") = some ConversationState.idle)
    ∧ (get_user_state s = .choosingLanguage →
      resState (process_message clk ok s "no") = some ConversationState.idle)
    ∧ wa_handle_awaiting_confirmation clk ok s "hapana" =
      .ok (emptySession, .appointmentCancelled) := by
  refine ⟨?_, ?_, ?_, ?_, ?_, ?_, ?_, ?_, ?_, rfl⟩
  · intro h
    rw [process_message_at_confirmation clk ok s "no" h,
      process_message_at_confirmation clk ok s "cancel" h,
      process_message_at_confirmation clk ok s "hapana" h]
    refine ⟨rfl, rfl, ?_⟩
    show some (get_user_state (add_to_conversation_history s "user" "hapana")) =
      some ConversationState.awaitingConfirmation
    rw [get_user_state_add_hist, h]
  · intro h
    rw [process_message_at_awaiting_name clk ok s "no" h,
      process_message_at_awaiting_name clk ok s "cancel" h,
      process_message_at_awaiting_name clk ok s "hapana" h]
    refine ⟨fun hwf => ⟨rfl, ?_⟩, rfl, rfl⟩
    show dget (dupdate (get_appointment_data s)
        (dset (get_appointment_data s) "customer_name" (PVal.str (pyStrip "no"))))
        "customer_name" = some (PVal.str "no")
    rw [dget_dupdate_dset_self _ _ _ hwf]
    rfl
  · intro h
    rw [process_message_at_awaiting_date clk ok s "no" h,
      process_message_at_awaiting_date clk ok s "cancel" h,
      process_message_at_awaiting_date clk ok s "hapana" h]
    exact ⟨rfl, rfl, rfl⟩
  · intro h k
    rw [process_message_at_awaiting_service clk ok s "no" h,
      process_message_at_awaiting_service clk ok s "cancel" h,
      process_message_at_awaiting_service clk ok s "hapana" h]
    refine ⟨?_, ?_, ?_, rfl⟩
    · show some (get_user_state (add_to_conversation_history s "user" "no")) =
        some ConversationState.awaitingService
      rw [get_user_state_add_hist, h]
    · show some (get_user_state (add_to_conversation_history s "user" "cancel")) =
        some ConversationState.awaitingService
      rw [get_user_state_add_hist, h]
    · show some (get_user_state (add_to_conversation_history s "user" "hapana")) =
        some ConversationState.awaitingService
      rw [get_user_state_add_hist, h]
  · intro h k
    rw [process_message_at_awaiting_time clk ok s "no" h,
      process_message_at_awaiting_time clk ok s "cancel" h,
      process_message_at_awaiting_time clk ok s "hapana" h]
    refine ⟨?_, ?_, ?_, rfl⟩
    · show some (get_user_state (add_to_conversation_history s "user" "no")) =
        some ConversationState.awaitingTime
      rw [get_user_state_add_hist, h]
    · show some (get_user_state (add_to_conversation_history s "user" "cancel")) =
        some ConversationState.awaitingTime
      rw [get_user_state_add_hist, h]
    · show some (get_user_state (add_to_conversation_history s "user" "hapana")) =
        some ConversationState.awaitingTime
      rw [get_user_state_add_hist, h]
  · intro h k
    rw [process_message_at_awaiting_phone clk ok s "no" h,
      process_message_at_awaiting_phone clk ok s "cancel" h,
      process_message_at_awaiting_phone clk ok s "hapana" h]
    refine ⟨?_, ?_, ?_, rfl⟩
    · show some (get_user_state (add_to_conversation_history s "user" "no")) =
        some ConversationState.awaitingPhone
      rw [get_user_state_add_hist, h]
    · show some (get_user_state (add_to_conversation_history s "user" "cancel")) =
        some ConversationState.awaitingPhone
      rw [get_user_state_add_hist, h]
    · show some (get_user_state (add_to_conversation_history s "user" "hapana")) =
        some ConversationState.awaitingPhone
      rw [get_user_state_add_hist, h]
  · intro h
    rw [process_message_at_viewing clk ok s "no" h,
      process_message_at_viewing clk ok s "xyz" h]
    exact ⟨rfl, rfl⟩
  · intro h
    rw [process_message_at_awaiting_payment clk ok s "no" h,
      process_message_at_awaiting_payment clk ok s "xyz" h]
    exact ⟨rfl, rfl⟩
  · intro h
    rw [process_message_at_choosing_language clk ok s "no" h]
    rfl

/-- Witness for C3: the cancel word "no" cancels at confirmation, is
swallowed as a name at AWAITING_NAME, re-prompts in place at AWAITING_TIME,
and a non-dispatched AWAITING_PAYMENT session goes to IDLE even on the
non-cancel input "xyz". -/
theorem claim_C3_amended_witness :
    resState (process_message ⟨0, "2026-01-01", "2026-01-02"⟩ true
        { userState := some ConversationState.awaitingConfirmation } "no") =
      some ConversationState.idle
    ∧ resState (process_message ⟨0, "2026-01-01", "2026-01-02"⟩ true
        { userState := some ConversationState.awaitingName } "no") =
      some ConversationState.awaitingPhone
    ∧ resState (process_message ⟨0, "2026-01-01", "2026-01-02"⟩ true
        { userState := some ConversationState.awaitingTime } "no") =
      some ConversationState.awaitingTime
    ∧ resState (process_message ⟨0, "2026-01-01", "2026-01-02"⟩ true
        { userState := some ConversationState.awaitingPayment } "xyz") =
      some ConversationState.idle :=
  ⟨((claim_C3_amended ⟨0, "2026-01-01", "2026-01-02"⟩ true
      { userState := some ConversationState.awaitingConfirmation }).1 rfl).1,
   (((claim_C3_amended ⟨0, "2026-01-01", "2026-01-02"⟩ true
      { userState := some ConversationState.awaitingName }).2.1 rfl).1
      (by decide)).1,
   (((claim_C3_amended ⟨0, "2026-01-01", "2026-01-02"⟩ true
      { userState := some ConversationState.awaitingTime }).2.2.2.2.1 rfl)
      "time").1,
   ((claim_C3_amended ⟨0, "2026-01-01", "2026-01-02"⟩ true
      { userState := some ConversationState.awaitingPayment }).2.2.2.2.2.2.2.1
      rfl).2⟩

/-- Counterexample for C4: "n" — a member of the claimed negative set — does
not cancel (the session stays at AWAITING_CONFIRMATION), and after "no" the
ConversationHandler draft is *not* discarded (the service entry is still
readable). -/
theorem claim_C4_counterexample :
    resState (process_message ⟨0, "2026-01-01", "2026-01-02"⟩ true
        { userState := some ConversationState.awaitingConfirmation,
          appointment := some [("service", PVal.str "Facial Treatment")] } "n") =
      some ConversationState.awaitingConfirmation
    ∧ resState (process_message ⟨0, "2026-01-01", "2026-01-02"⟩ true
        { userState := some ConversationState.awaitingConfirmation,
          appointment := some [("service", PVal.str "Facial Treatment")] } "n") ≠
      some ConversationState.idle
    ∧ resState (process_message ⟨0, "2026-01-01", "2026-01-02"⟩ true
        { userState := some ConversationState.awaitingConfirmation,
          appointment := some [("service", PVal.str "Facial Treatment")] } "no") =
      some ConversationState.idle
    ∧ resDraftGet (process_message ⟨0, "2026-01-01", "2026-01-02"⟩ true
        { userState := some ConversationState.awaitingConfirmation,
          appointment := some [("service", PVal.str "Facial Treatment")] } "no")
        "service" = some (PVal.str "Facial Treatment") := by
  refine ⟨rfl, by decide, rfl, rfl⟩

/-- Claim C4 (corrected): at AWAITING_CONFIRMATION, ConversationHandler's
negative set is only {"no","cancel"} — it moves to IDLE but keeps the draft;
"n", "hapana" and "change" re-show the summary.  The WhatsApp handler's
negative set is {"no","hapana","cancel","change"} (no "n") and it clears the
whole session, so there the draft does read back empty. -/
theorem claim_C4_amended (clk : Clock) (ok : Bool) (s : Session) (k : String)
    (h : get_user_state s = .awaitingConfirmation) :
    resState (process_message clk ok s "no") = some ConversationState.idle
    ∧ resDraftGet (process_message clk ok s "no") k =
      dget (get_appointment_data s) k
    ∧ resState (process_message clk ok s "cancel") = some ConversationState.idle
    ∧ resState (process_message clk ok s "n") =
      some ConversationState.awaitingConfirmation
    ∧ resState (process_message clk ok s "hapana") =
      some ConversationState.awaitingConfirmation
    ∧ resState (process_message clk ok s "change") =
      some ConversationState.awaitingConfirmation
    ∧ wa_handle_awaiting_confirmation clk ok s "no" =
      .ok (emptySession, .appointmentCancelled)
    ∧ wa_handle_awaiting_confirmation clk ok s "hapana" =
      .ok (emptySession, .appointmentCancelled)
    ∧ wa_handle_awaiting_confirmation clk ok s "change" =
      .ok (emptySession, .appointmentCancelled)
    ∧ wa_handle_awaiting_confirmation clk ok s "n" =
      .ok (s, .askForConfirmationAgain (get_appointment_data s))
    ∧ dget (get_appointment_data emptySession) k = none := by
  rw [process_message_at_confirmation clk ok s "no" h,
    process_message_at_confirmation clk ok s "cancel" h,
    process_message_at_confirmation clk ok s "n" h,
    process_message_at_confirmation clk ok s "hapana" h,
    process_message_at_confirmation clk ok s "change" h]
  refine ⟨rfl, rfl, rfl, ?_, ?_, ?_, rfl, rfl, rfl, rfl, rfl⟩
  · show some (get_user_state (add_to_conversation_history s "user" "n")) =
      some ConversationState.awaitingConfirmation
    rw [get_user_state_add_hist, h]
  · show some (get_user_state (add_to_conversation_history s "user" "hapana")) =
      some ConversationState.awaitingConfirmation
    rw [get_user_state_add_hist, h]
  · show some (get_user_state (add_to_conversation_history s "user" "change")) =
      some ConversationState.awaitingConfirmation
    rw [get_user_state_add_hist, h]

/-- Witness for C4 at a concrete confirming session. -/
theorem claim_C4_amended_witness :
    resState (process_message ⟨0, "2026-01-01", "2026-01-02"⟩ true
        { userState := some ConversationState.awaitingConfirmation,
          appointment := some [("service", PVal.str "Facial Treatment")] } "no") =
      some ConversationState.idle
    ∧ resDraftGet (process_message ⟨0, "2026-01-01", "2026-01-02"⟩ true
        { userState := some ConversationState.awaitingConfirmation,
          appointment := some [("service", PVal.str "Facial Treatment")] } "no")
        "service" =
      dget (get_appointment_data
        { userState := some ConversationState.awaitingConfirmation,
          appointment := some [("service", PVal.str "Facial Treatment")] }) "service" :=
  ⟨(claim_C4_amended ⟨0, "2026-01-01", "2026-01-02"⟩ true
      { userState := some ConversationState.awaitingConfirmation,
        appointment := some [("service", PVal.str "Facial Treatment")] }
      "service" rfl).1,
   (claim_C4_amended ⟨0, "2026-01-01", "2026-01-02"⟩ true
      { userState := some ConversationState.awaitingConfirmation,
        appointment := some [("service", PVal.str "Facial Treatment")] }
      "service" rfl).2.1⟩

/-- Claim C7 (confirmed): from IDLE, "I want to book a haircut tomorrow at
2pm" is handled in one turn by the combined-extraction path: the hair
category "Haircut & Styling" is stored as the service, the date is the
clock's tomorrow ISO rendering, the time is "14:00", and the session lands
in AWAITING_NAME. -/
theorem claim_C7_combined (clk : Clock) (ok : Bool) (s : Session)
    (hstate : get_user_state s = .idle)
    (hwf : wfDict (get_appointment_data s)) :
    resState (process_message clk ok s "I want to book a haircut tomorrow at 2pm") =
      some ConversationState.awaitingName
    ∧ resDraftGet (process_message clk ok s "I want to book a haircut tomorrow at 2pm")
        "service" = some (PVal.str "Haircut & Styling")
    ∧ resDraftGet (process_message clk ok s "I want to book a haircut tomorrow at 2pm")
        "date" = some (PVal.str clk.tomorrowIso)
    ∧ resDraftGet (process_message clk ok s "I want to book a haircut tomorrow at 2pm")
        "time" = some (PVal.str "14:00")
    ∧ resResp (process_message clk ok s "I want to book a haircut tomorrow at 2pm") =
      some (Resp.askForNameWithTime "Haircut & Styling" "tomorrow") := by
  rw [process_message_at_idle clk ok s _ hstate]
  have hwf1 := wfDict_dset (get_appointment_data s) "service"
    (PVal.str "Haircut & Styling") hwf
  have hwf2 := wfDict_dset _ "time_info" (PVal.str "tomorrow") hwf1
  have hwf3 := wfDict_dset _ "time" (PVal.str "14:00") hwf2
  have hwf4 := wfDict_dset _ "date" (PVal.str clk.tomorrowIso) hwf3
  refine ⟨rfl, ?_, ?_, ?_, rfl⟩
  · show dget (dupdate (get_appointment_data s)
        (dset (dset (dset (dset (get_appointment_data s)
          "service" (PVal.str "Haircut & Styling"))
          "time_info" (PVal.str "tomorrow"))
          "time" (PVal.str "14:00"))
          "date" (PVal.str clk.tomorrowIso))) "service" =
      some (PVal.str "Haircut & Styling")
    refine dget_dupdate_of_wf _ _ _ _ hwf4 ?_
    rw [dget_dset, if_neg (by decide), dget_dset, if_neg (by decide),
      dget_dset, if_neg (by decide), dget_dset, if_pos rfl]
  · show dget (dupdate (get_appointment_data s)
        (dset (dset (dset (dset (get_appointment_data s)
          "service" (PVal.str "Haircut & Styling"))
          "time_info" (PVal.str "tomorrow"))
          "time" (PVal.str "14:00"))
          "date" (PVal.str clk.tomorrowIso))) "date" =
      some (PVal.str clk.tomorrowIso)
    refine dget_dupdate_of_wf _ _ _ _ hwf4 ?_
    rw [dget_dset, if_pos rfl]
  · show dget (dupdate (get_appointment_data s)
        (dset (dset (dset (dset (get_appointment_data s)
          "service" (PVal.str "Haircut & Styling"))
          "time_info" (PVal.str "tomorrow"))
          "time" (PVal.str "14:00"))
          "date" (PVal.str clk.tomorrowIso))) "time" =
      some (PVal.str "14:00")
    refine dget_dupdate_of_wf _ _ _ _ hwf4 ?_
    rw [dget_dset, if_neg (by decide), dget_dset, if_pos rfl]

/-- Witness for C7 from a fresh session with a concrete clock. -/
theorem claim_C7_combined_witness :
    resState (process_message ⟨0, "2026-01-01", "2026-01-02"⟩ true emptySession
        "I want to book a haircut tomorrow at 2pm") =
      some ConversationState.awaitingName
    ∧ resDraftGet (process_message ⟨0, "2026-01-01", "2026-01-02"⟩ true
        emptySession "I want to book a haircut tomorrow at 2pm") "service" =
      some (PVal.str "Haircut & Styling")
    ∧ resDraftGet (process_message ⟨0, "2026-01-01", "2026-01-02"⟩ true
        emptySession "I want to book a haircut tomorrow at 2pm") "date" =
      some (PVal.str (Clock.mk 0 "2026-01-01" "2026-01-02").tomorrowIso)
    ∧ resDraftGet (process_message ⟨0, "2026-01-01", "2026-01-02"⟩ true
        emptySession "I want to book a haircut tomorrow at 2pm") "time" =
      some (PVal.str "14:00")
    ∧ resResp (process_message ⟨0, "2026-01-01", "2026-01-02"⟩ true
        emptySession "I want to book a haircut tomorrow at 2pm") =
      some (Resp.askForNameWithTime "Haircut & Styling" "tomorrow") :=
  claim_C7_combined ⟨0, "2026-01-01", "2026-01-02"⟩ true emptySession rfl
    (by decide)

/-- Two stores with the same reference table and the same cell contents at
the referenced address hold the same stored draft. -/
theorem storedDraft_ext (st' st : StoreH) (chat : String)
    (happt : st'.appt = st.appt)
    (hc : ∀ a, addrLookup st.appt chat = some a →
      cellsGet st'.cells a = cellsGet st.cells a) :
    storedDraft st' chat = storedDraft st chat := by
  unfold storedDraft
  rw [happt]
  cases h : addrLookup st.appt chat with
  | none => rfl
  | some a =>
    show (cellsGet st'.cells a).getD [] = (cellsGet st.cells a).getD []
    rw [hc a h]

/-- Claim C10 (confirmed): `get_appointment_data` returns a fresh copy of
the stored draft — reading does not change the store, and mutating the
returned object leaves the stored draft untouched; `set_appointment_data`
is the only draft mutator and shallow-merges its argument into the stored
dict (keys present in the argument take the argument's value, keys absent
keep their prior values). -/
theorem claim_C10_draft_copy (st : StoreH) (chat : String) (k key : String)
    (v : PVal) (new : Dict) (hwf : wfStore st) :
    (cellsGet (get_appointment_data_h st chat).2.cells
        (get_appointment_data_h st chat).1).getD [] = storedDraft st chat
    ∧ storedDraft (get_appointment_data_h st chat).2 chat = storedDraft st chat
    ∧ storedDraft (objSet (get_appointment_data_h st chat).2
        (get_appointment_data_h st chat).1 k v) chat = storedDraft st chat
    ∧ storedDraft (set_appointment_data_h st chat new) chat =
      dupdate (storedDraft st chat) new
    ∧ (containsKey new key = false →
        dget (dupdate (storedDraft st chat) new) key =
          dget (storedDraft st chat) key)
    ∧ (dgetLast new key = some v →
        dget (dupdate (storedDraft st chat) new) key = some v) := by
  obtain ⟨hcell, haddr, hlive⟩ := hwf
  have hfresh : ∀ a, addrLookup st.appt chat = some a → a ≠ st.next := by
    intro a ha
    exact Nat.ne_of_lt (haddr (chat, a) (addrLookup_mem _ _ _ ha))
  refine ⟨?_, ?_, ?_, ?_, ?_, ?_⟩
  · show (cellsGet (st.cells ++ [(st.next, storedDraft st chat)]) st.next).getD []
      = storedDraft st chat
    rw [cellsGet_append, cellsGet_none_of_lt st.cells st.next hcell]
    simp [cellsGet, oE]
  · refine storedDraft_ext _ _ _ rfl ?_
    intro a ha
    show cellsGet (st.cells ++ [(st.next, storedDraft st chat)]) a =
      cellsGet st.cells a
    rw [cellsGet_append]
    simp [cellsGet, hfresh a ha, oE_none_right]
  · refine storedDraft_ext _ _ _ rfl ?_
    intro a ha
    show cellsGet (cellsUpd (st.cells ++ [(st.next, storedDraft st chat)])
        st.next (fun d => dset d k v)) a = cellsGet st.cells a
    rw [cellsGet_upd, if_neg (hfresh a ha), cellsGet_append]
    simp [cellsGet, hfresh a ha, oE_none_right]
  · cases ha : addrLookup st.appt chat with
    | some a =>
      have hsome : (cellsGet st.cells a).isSome = true :=
        hlive (chat, a) (addrLookup_mem _ _ _ ha)
      obtain ⟨d, hd⟩ := Option.isSome_iff_exists.mp hsome
      simp only [set_appointment_data_h, storedDraft, ha]
      rw [cellsGet_upd, if_pos rfl, hd]
      rfl
    | none =>
      simp only [set_appointment_data_h, storedDraft, ha]
      rw [addrLookup_append_fresh st.appt chat st.next ha]
      show (cellsGet (cellsUpd (st.cells ++ [(st.next, [])]) st.next
          (fun d => dupdate d new)) st.next).getD [] = dupdate [] new
      rw [cellsGet_upd, if_pos rfl, cellsGet_append,
        cellsGet_none_of_lt st.cells st.next hcell]
      simp [cellsGet, oE]
  · intro h
    rw [dget_dupdate, dgetLast_not_contains new key h]
    rfl
  · intro h
    rw [dget_dupdate, h]
    rfl

/-- Witness for C10 at a concrete one-chat store. -/
theorem claim_C10_draft_copy_witness :
    wfStore { cells := [(0, [("service", PVal.str "Facial Treatment")])],
              next := 1, appt := [("u", 0)] }
    ∧ storedDraft (objSet (get_appointment_data_h
          { cells := [(0, [("service", PVal.str "Facial Treatment")])],
            next := 1, appt := [("u", 0)] } "u").2
        (get_appointment_data_h
          { cells := [(0, [("service", PVal.str "Facial Treatment")])],
            next := 1, appt := [("u", 0)] } "u").1 "date" (PVal.str "2026-01-02"))
        "u" =
      storedDraft { cells := [(0, [("service", PVal.str "Facial Treatment")])],
                    next := 1, appt := [("u", 0)] } "u" :=
  ⟨by decide,
   (claim_C10_draft_copy
      { cells := [(0, [("service", PVal.str "Facial Treatment")])],
        next := 1, appt := [("u", 0)] } "u" "date" "service"
      (PVal.str "2026-01-02") [("date", PVal.str "2026-01-02")]
      (by decide)).2.2.1⟩
